import Mathlib

/-!
Verification of the Reservation Ledger & Billing Engine of the hotel
management system (`CA.py`).  The persistent line-oriented files are
modelled as lists of structured records (a record per well-formed line),
and each core operation is translated from the corresponding Python
function.  GUI rendering, dialogs and message boxes are presentation and
are not modelled; confirmation dialogs are modelled as accepted.
-/

/-- Record of `rooms.txt`: `number,type,status,pricePerNight`
(see `initialize_files`, CA.py lines 16-25).  The `type` field is named
`rtype` here.  Statuses are the literal strings `"Available"` /
`"Booked"` exactly as the code compares and writes them. -/
structure Room where
  number : String
  rtype : String
  status : String
  price : Nat
deriving DecidableEq, Repr

/-- Record of `customers.txt`:
`name,idProof,roomNumber,roomType,nights,roomTotal,phone,checkInTimestamp`
(written by `process_booking`, CA.py line 444). -/
structure Customer where
  name : String
  idProof : String
  roomNumber : String
  roomType : String
  nights : Nat
  roomTotal : Nat
  phone : String
  timestamp : String
deriving DecidableEq, Repr

/-- Record of `food_orders.txt` and `services.txt`:
`name,idProof,roomNumber,description,quantity,unitPrice,lineTotal,timestamp`
(written by the two `place_order` closures, CA.py lines 1014-1017 and
1118-1121). -/
structure Charge where
  name : String
  idProof : String
  roomNumber : String
  description : String
  quantity : Nat
  unitPrice : Nat
  lineTotal : Nat
  timestamp : String
deriving DecidableEq, Repr

/-- Record of `housekeeping.txt`:
`name,idProof,roomNumber,description,cost,preferredTime,specialRequest,timestamp,status`
(written by `submit_request`, CA.py lines 1215-1218). -/
structure HkCharge where
  name : String
  idProof : String
  roomNumber : String
  description : String
  cost : Nat
  preferredTime : String
  specialRequest : String
  timestamp : String
  status : String
deriving DecidableEq, Repr

/-- The `bill_data` dictionary built by `calculate_bill`
(CA.py lines 783-793), restricted to its numeric totals. -/
structure BillData where
  room_total : Nat
  food_total : Nat
  services_total : Nat
  housekeeping_total : Nat
  grand_total : Nat
deriving DecidableEq, Repr

/-- The persistent state: the five data files that the billing core
reads and writes (grievances and feedback are write-only side logs and
are not part of any claim). -/
structure HotelState where
  rooms : List Room
  customers : List Customer
  foodOrders : List Charge
  services : List Charge
  housekeeping : List HkCharge
deriving DecidableEq, Repr

/-- Seed inventory written by `initialize_files` (CA.py lines 16-25). -/
def seedRooms : List Room :=
  [⟨"101", "Normal", "Available", 1000⟩,
   ⟨"102", "Normal", "Available", 1000⟩,
   ⟨"103", "Normal", "Available", 1000⟩,
   ⟨"201", "Deluxe", "Available", 1800⟩,
   ⟨"202", "Deluxe", "Available", 1800⟩,
   ⟨"203", "Deluxe", "Available", 1800⟩,
   ⟨"301", "Suite", "Available", 3000⟩,
   ⟨"302", "Suite", "Available", 3000⟩]

/-- Fresh state on first initialization: seed rooms, all logs empty. -/
def seedState : HotelState := ⟨seedRooms, [], [], [], []⟩

/-- Python's `str.lower()`: lower-case every character.  (Defined by a
structural map over the character list so that it evaluates on concrete
inputs.) -/
def lower (s : String) : String := ⟨s.data.map Char.toLower⟩

/-- The identity test used uniformly by the code:
`data[0].lower() == name.lower() and data[1] == id_proof`
(CA.py lines 45, 530, 800, 818, 833, 848). -/
def idMatch (name idp recName recIdp : String) : Bool :=
  lower recName == lower name && recIdp == idp

/-- Room-charge scan of `calculate_bill` (CA.py lines 796-809): walk
`customers.txt` in storage order and stop at the first identity match
(the loop ends with `break`). -/
def roomScan (name idp : String) : List Customer → Option Customer
  | [] => none
  | c :: cs =>
      if idMatch name idp c.name c.idProof then some c
      else roomScan name idp cs

/-- Food / services accumulation loop of `calculate_bill`
(CA.py lines 814-826 and 829-841): add `lineTotal` of every matching
line to a running total starting at 0. -/
def chargeLoop (name idp : String) (l : List Charge) : Nat :=
  l.foldl (fun acc r => if idMatch name idp r.name r.idProof then acc + r.lineTotal else acc) 0

/-- Housekeeping accumulation loop of `calculate_bill`
(CA.py lines 844-856): add `cost` of every matching line. -/
def hkLoop (name idp : String) (l : List HkCharge) : Nat :=
  l.foldl (fun acc r => if idMatch name idp r.name r.idProof then acc + r.cost else acc) 0

/-- `calculate_bill` (CA.py lines 781-865).  Each source is passed as an
`Option`: `none` models a missing/unreadable file, whose `try/except`
block leaves the corresponding total at its initial value 0. -/
def calculate_bill (name idp : String)
    (customers : Option (List Customer)) (food : Option (List Charge))
    (svcs : Option (List Charge)) (hk : Option (List HkCharge)) : BillData :=
  let rt : Nat :=
    match customers with
    | none => 0
    | some cs =>
        match roomScan name idp cs with
        | some c => c.roomTotal
        | none => 0
  let ft : Nat := match food with | none => 0 | some l => chargeLoop name idp l
  let st : Nat := match svcs with | none => 0 | some l => chargeLoop name idp l
  let ht : Nat := match hk with | none => 0 | some l => hkLoop name idp l
  ⟨rt, ft, st, ht, rt + ft + st + ht⟩

/-- `calculate_bill` on a state in which every data file is readable. -/
def computeBill (s : HotelState) (name idp : String) : BillData :=
  calculate_bill name idp (some s.customers) (some s.foodOrders)
    (some s.services) (some s.housekeeping)

/-- Room-allocation loop of `process_booking` (CA.py lines 424-457):
walk the rooms in storage order; the first room whose type matches and
whose status is `"Available"` is rewritten with status `"Booked"`
(the `booked` flag prevents any later room from being taken); every
other line is rewritten unchanged.  Returns the allocated room (with its
pre-booking fields, as the code reads `data[0]`, `data[3]` before the
mutation) and the rewritten inventory, or `none` when no room matches. -/
def bookRoom (t : String) : List Room → Option (Room × List Room)
  | [] => none
  | r :: rs =>
      if r.rtype == t && r.status == "Available" then
        some (r, { r with status := "Booked" } :: rs)
      else
        match bookRoom t rs with
        | some (b, rs2) => some (b, r :: rs2)
        | none => none

/-- Outcome of `process_booking`: the three error messages and, on
success, the booked room number and the computed total shown to the
guest. -/
inductive BookOutcome where
  | missingFields
  | invalidDays
  | noAvailability
  | booked (roomNumber : String) (total : Nat)
deriving DecidableEq, Repr

/-- Whether a `BookOutcome` is the success case. -/
def BookOutcome.isBooked : BookOutcome → Bool
  | .booked _ _ => true
  | _ => false

/-- `process_booking` (CA.py lines 398-464).  Validates that the text
fields are non-empty and `days > 0`; allocates via the room loop; on
success appends one line
`name,idProof,roomNumber,roomType,days,price*days,phone,timestamp` to
`customers.txt` and rewrites `rooms.txt` with the room booked; on any
failure it returns before writing anything, so the state is returned
unchanged.  The confirmation dialog is modelled as accepted. -/
def process_booking (s : HotelState) (name idp t : String) (days : Nat)
    (phone ts : String) : BookOutcome × HotelState :=
  if name == "" || idp == "" || phone == "" then (.missingFields, s)
  else if days == 0 then (.invalidDays, s)
  else
    match bookRoom t s.rooms with
    | none => (.noAvailability, s)
    | some (r, rooms2) =>
        (.booked r.number (r.price * days),
         { s with
             rooms := rooms2,
             customers := s.customers ++
               [⟨name, idp, r.number, r.rtype, days, r.price * days, phone, ts⟩] })

/-- Customer-removal loop of `process_checkout` (CA.py lines 528-535):
every non-matching line is appended to `new_customers` in order; every
matching line is dropped, and `customer_data` / `freed_room` are
overwritten at each match, so they end up holding the last match.
Returns the rewritten registry and the last matching record (if any). -/
def removeMatches (name idp : String) : List Customer → List Customer × Option Customer
  | [] => ([], none)
  | c :: cs =>
      let rest := removeMatches name idp cs
      if idMatch name idp c.name c.idProof then
        (rest.1, match rest.2 with | some c2 => some c2 | none => some c)
      else
        (c :: rest.1, rest.2)

/-- Outcome of `process_checkout`: the two error messages and, on
success, the removed customer record together with the final bill shown
in the check-out message. -/
inductive CheckoutOutcome where
  | missingFields
  | notFound
  | done (customer : Customer) (bill : BillData)
deriving DecidableEq, Repr

/-- `process_checkout` (CA.py lines 511-585).  Validates non-empty
fields; removes every matching customer line; if a match was found,
rewrites `customers.txt`, sets every room whose number equals the last
match's `freed_room` to `"Available"`, and only then calls
`calculate_bill`, which therefore reads the already-rewritten registry
(the unchanged charge ledgers are read as-is).  On `notFound` nothing
has been written back differently: the rewritten registry equals the
original, and `rooms.txt` is untouched. -/
def process_checkout (s : HotelState) (name idp : String) :
    CheckoutOutcome × HotelState :=
  if name == "" || idp == "" then (.missingFields, s)
  else
    match removeMatches name idp s.customers with
    | (_, none) => (.notFound, s)
    | (newCustomers, some cd) =>
        let rooms2 := s.rooms.map fun r =>
          if r.number == cd.roomNumber then { r with status := "Available" } else r
        let s2 : HotelState :=
          { s with rooms := rooms2, customers := newCustomers }
        (.done cd (calculate_bill name idp (some s2.customers)
            (some s.foodOrders) (some s.services) (some s.housekeeping)), s2)

/-- `place_order` for food (CA.py lines 997-1025): append one line per
selected item `(item, qty, price)` to `food_orders.txt`, with
`lineTotal = price * qty`. -/
def place_order_food (s : HotelState) (gname gid groom : String)
    (orders : List (String × Nat × Nat)) (ts : String) : HotelState :=
  { s with foodOrders := s.foodOrders ++
      orders.map fun o => ⟨gname, gid, groom, o.1, o.2.1, o.2.2, o.2.2 * o.2.1, ts⟩ }

/-- `place_order` for non-food items (CA.py lines 1101-1129): identical
to the food version but appending to `services.txt`. -/
def place_order_services (s : HotelState) (gname gid groom : String)
    (orders : List (String × Nat × Nat)) (ts : String) : HotelState :=
  { s with services := s.services ++
      orders.map fun o => ⟨gname, gid, groom, o.1, o.2.1, o.2.2, o.2.2 * o.2.1, ts⟩ }

/-- `submit_request` for housekeeping (CA.py lines 1202-1227): append
one line per selected service `(service, price)` to `housekeeping.txt`
with status `"Pending"`. -/
def submit_request_housekeeping (s : HotelState) (gname gid groom : String)
    (selected : List (String × Nat)) (prefTime specialReq ts : String) : HotelState :=
  { s with housekeeping := s.housekeeping ++
      selected.map fun o => ⟨gname, gid, groom, o.1, o.2, prefTime, specialReq, ts, "Pending"⟩ }

/-- Number of active occupancy records matching an identity. -/
def countId (name idp : String) (cs : List Customer) : Nat :=
  cs.countP fun c => idMatch name idp c.name c.idProof

/-- Number of active occupancy records referencing a room number. -/
def countRefs (num : String) (cs : List Customer) : Nat :=
  cs.countP fun c => c.roomNumber == num

/-- Two occupancy records carry the same identity (name compared
case-insensitively, idProof exactly). -/
def sameId (a b : Customer) : Bool :=
  lower a.name == lower b.name && a.idProof == b.idProof

/-- The §3 room/occupancy invariant of the spec, as stated there:
`status = Booked` iff exactly one active occupancy references the room. -/
def roomInv (s : HotelState) : Prop :=
  ∀ r ∈ s.rooms, (r.status = "Booked" ↔ countRefs r.number s.customers = 1)

instance (s : HotelState) : Decidable (roomInv s) := by
  unfold roomInv
  infer_instance

/-- Inductive strengthening of the spec invariant: room numbers are
distinct, each room is referenced by at most one active occupancy with
`Booked` iff exactly one, and no two simultaneously active occupancy
records share an identity. -/
def hotelInv (s : HotelState) : Prop :=
  (s.rooms.map Room.number).Nodup ∧
  roomInv s ∧
  (∀ r ∈ s.rooms, countRefs r.number s.customers ≤ 1) ∧
  s.customers.Pairwise fun a b => sameId a b = false

instance (s : HotelState) : Decidable (hotelInv s) := by
  unfold hotelInv
  infer_instance

/-! Concrete scenario states used to evaluate the operations. -/

/-- The §8 scenario after check-in: Ann/P1, one Normal room, 2 nights. -/
def annCheckedIn : HotelState :=
  (process_booking seedState "Ann" "P1" "Normal" 2 "9999" "t1").2

/-- The §8 scenario after the food order: one Pizza at 450. -/
def annWithFood : HotelState :=
  place_order_food annCheckedIn "Ann" "P1" "101" [("Pizza", 1, 450)] "t2"

/-- One check-in for Ann/P1 from the seed state. -/
def doubleBook1 : HotelState :=
  (process_booking seedState "Ann" "P1" "Normal" 1 "9" "t1").2

/-- A second check-in for the same identity Ann/P1. -/
def doubleBook2 : HotelState :=
  (process_booking doubleBook1 "Ann" "P1" "Normal" 1 "9" "t2").2

/-- Check-out of Ann/P1 after the duplicated check-in. -/
def doubleBookOut : HotelState :=
  (process_checkout doubleBook2 "Ann" "P1").2

/-- A registry holding two occupancy records that both match the
identity Ann/P1 (the second with a differently-cased name and a
different frozen room total). -/
def twoMatchState : HotelState :=
  { seedState with customers :=
      [⟨"Ann", "P1", "101", "Normal", 2, 2000, "9", "t1"⟩,
       ⟨"ann", "P1", "102", "Suite", 3, 999, "9", "t2"⟩] }

/-! Helper lemmas about the loops of `calculate_bill`. -/

theorem chargeLoop_aux (name idp : String) (l : List Charge) (a : Nat) :
    l.foldl (fun acc r => if idMatch name idp r.name r.idProof then acc + r.lineTotal else acc) a
      = a + ((l.filter fun r => idMatch name idp r.name r.idProof).map Charge.lineTotal).sum := by
  induction l generalizing a with
  | nil => simp
  | cons r rs ih =>
      by_cases h : idMatch name idp r.name r.idProof
      · simp [List.foldl_cons, List.filter_cons, h, ih, Nat.add_assoc]
      · simp [List.foldl_cons, List.filter_cons, h, ih]

theorem chargeLoop_eq_sum (name idp : String) (l : List Charge) :
    chargeLoop name idp l
      = ((l.filter fun r => idMatch name idp r.name r.idProof).map Charge.lineTotal).sum := by
  simpa using chargeLoop_aux name idp l 0

theorem hkLoop_aux (name idp : String) (l : List HkCharge) (a : Nat) :
    l.foldl (fun acc r => if idMatch name idp r.name r.idProof then acc + r.cost else acc) a
      = a + ((l.filter fun r => idMatch name idp r.name r.idProof).map HkCharge.cost).sum := by
  induction l generalizing a with
  | nil => simp
  | cons r rs ih =>
      by_cases h : idMatch name idp r.name r.idProof
      · simp [List.foldl_cons, List.filter_cons, h, ih, Nat.add_assoc]
      · simp [List.foldl_cons, List.filter_cons, h, ih]

theorem hkLoop_eq_sum (name idp : String) (l : List HkCharge) :
    hkLoop name idp l
      = ((l.filter fun r => idMatch name idp r.name r.idProof).map HkCharge.cost).sum := by
  simpa using hkLoop_aux name idp l 0

theorem chargeLoop_append (name idp : String) (l₁ l₂ : List Charge) :
    chargeLoop name idp (l₁ ++ l₂)
      = chargeLoop name idp l₁
        + ((l₂.filter fun r => idMatch name idp r.name r.idProof).map Charge.lineTotal).sum := by
  simp [chargeLoop_eq_sum, List.filter_append]

theorem hkLoop_append (name idp : String) (l₁ l₂ : List HkCharge) :
    hkLoop name idp (l₁ ++ l₂)
      = hkLoop name idp l₁
        + ((l₂.filter fun r => idMatch name idp r.name r.idProof).map HkCharge.cost).sum := by
  simp [hkLoop_eq_sum, List.filter_append]

theorem roomScan_eq_none (name idp : String) (cs : List Customer)
    (h : ∀ c ∈ cs, idMatch name idp c.name c.idProof = false) :
    roomScan name idp cs = none := by
  induction cs with
  | nil => rfl
  | cons c cs ih =>
      have hc := h c (List.mem_cons_self c cs)
      simp [roomScan, hc]
      exact ih fun x hx => h x (List.mem_cons_of_mem c hx)

theorem roomScan_first (name idp : String) (l₁ l₂ : List Customer) (c : Customer)
    (hc : idMatch name idp c.name c.idProof = true)
    (hfirst : ∀ x ∈ l₁, idMatch name idp x.name x.idProof = false) :
    roomScan name idp (l₁ ++ c :: l₂) = some c := by
  induction l₁ with
  | nil => simp [roomScan, hc]
  | cons x l₁ ih =>
      have hx := hfirst x (List.mem_cons_self x l₁)
      simp only [List.cons_append, roomScan, hx]
      simp only [Bool.false_eq_true, if_false]
      exact ih fun y hy => hfirst y (List.mem_cons_of_mem x hy)

/-! Helper lemmas about the room-allocation loop. -/

theorem bookRoom_none (t : String) (rs : List Room)
    (h : ∀ x ∈ rs, (x.rtype == t && x.status == "Available") = false) :
    bookRoom t rs = none := by
  induction rs with
  | nil => rfl
  | cons r rs ih =>
      have hr := h r (List.mem_cons_self r rs)
      simp only [bookRoom, hr, Bool.false_eq_true, if_false]
      rw [ih fun x hx => h x (List.mem_cons_of_mem r hx)]

theorem bookRoom_of_first (t : String) (l₁ l₂ : List Room) (r : Room)
    (hr : (r.rtype == t && r.status == "Available") = true)
    (hfirst : ∀ x ∈ l₁, (x.rtype == t && x.status == "Available") = false) :
    bookRoom t (l₁ ++ r :: l₂)
      = some (r, l₁ ++ { r with status := "Booked" } :: l₂) := by
  induction l₁ with
  | nil => simp [bookRoom, hr]
  | cons x l₁ ih =>
      have hx := hfirst x (List.mem_cons_self x l₁)
      have ih2 := ih fun y hy => hfirst y (List.mem_cons_of_mem x hy)
      simp [bookRoom, hx, ih2]

theorem bookRoom_some (t : String) (rs : List Room) (r : Room) (rs2 : List Room)
    (h : bookRoom t rs = some (r, rs2)) :
    ∃ l₁ l₂, rs = l₁ ++ r :: l₂
      ∧ rs2 = l₁ ++ { r with status := "Booked" } :: l₂
      ∧ r.rtype = t ∧ r.status = "Available" := by
  induction rs generalizing rs2 with
  | nil => simp [bookRoom] at h
  | cons x xs ih =>
      by_cases hx : (x.rtype == t && x.status == "Available") = true
      · simp only [bookRoom, hx, if_true, Option.some.injEq, Prod.mk.injEq] at h
        obtain ⟨rfl, rfl⟩ := h
        refine ⟨[], xs, rfl, rfl, ?_, ?_⟩
        · exact eq_of_beq (Bool.and_elim_left hx)
        · exact eq_of_beq (Bool.and_elim_right hx)
      · simp only [bookRoom, hx, if_false] at h
        cases hrec : bookRoom t xs with
        | none => rw [hrec] at h; exact absurd h (by simp)
        | some p =>
            rw [hrec] at h
            obtain ⟨b, ys⟩ := p
            simp only [Option.some.injEq, Prod.mk.injEq] at h
            obtain ⟨rfl, rfl⟩ := h
            obtain ⟨l₁, l₂, h1, h2, h3, h4⟩ := ih ys hrec
            exact ⟨x :: l₁, l₂, by simp [h1], by simp [h2], h3, h4⟩

/-! Helper lemmas about the check-out removal loop. -/

theorem removeMatches_fst (name idp : String) (cs : List Customer) :
    (removeMatches name idp cs).1
      = cs.filter fun c => ! idMatch name idp c.name c.idProof := by
  induction cs with
  | nil => rfl
  | cons c cs ih =>
      by_cases h : idMatch name idp c.name c.idProof
      · simp [removeMatches, h, ih]
      · simp [removeMatches, h, ih]

theorem removeMatches_snd_none (name idp : String) (cs : List Customer)
    (h : (removeMatches name idp cs).2 = none) :
    ∀ c ∈ cs, idMatch name idp c.name c.idProof = false := by
  induction cs with
  | nil => intro c hc; simp at hc
  | cons c cs ih =>
      intro x hx
      by_cases hc : idMatch name idp c.name c.idProof
      · exfalso
        simp only [removeMatches, hc, if_true] at h
        cases h2 : (removeMatches name idp cs).2 with
        | none => rw [h2] at h; simp at h
        | some c2 => rw [h2] at h; simp at h
      · simp only [removeMatches, hc, Bool.false_eq_true, if_false] at h
        rcases List.mem_cons.mp hx with rfl | hx2
        · exact Bool.eq_false_iff.mpr hc
        · exact ih h x hx2

theorem removeMatches_snd_some (name idp : String) (cs : List Customer) (cd : Customer)
    (h : (removeMatches name idp cs).2 = some cd) :
    cd ∈ cs ∧ idMatch name idp cd.name cd.idProof = true := by
  induction cs with
  | nil => simp [removeMatches] at h
  | cons c cs ih =>
      by_cases hc : idMatch name idp c.name c.idProof
      · simp only [removeMatches, hc, if_true] at h
        cases h2 : (removeMatches name idp cs).2 with
        | none =>
            rw [h2] at h
            simp only [Option.some.injEq] at h
            obtain rfl := h
            exact ⟨List.mem_cons_self _ _, hc⟩
        | some c2 =>
            rw [h2] at h
            simp only [Option.some.injEq] at h
            obtain rfl := h
            obtain ⟨hm, hmatch⟩ := ih h2
            exact ⟨List.mem_cons_of_mem c hm, hmatch⟩
      · simp only [removeMatches, hc, Bool.false_eq_true, if_false] at h
        obtain ⟨hm, hmatch⟩ := ih h
        exact ⟨List.mem_cons_of_mem c hm, hmatch⟩

/-! Identity uniqueness lemmas. -/

theorem sameId_of_match (name idp : String) (a b : Customer)
    (ha : idMatch name idp a.name a.idProof = true)
    (hb : idMatch name idp b.name b.idProof = true) :
    sameId a b = true := by
  simp only [idMatch, Bool.and_eq_true, beq_iff_eq] at ha hb
  simp [sameId, ha.1, hb.1, ha.2, hb.2]

theorem unique_match_filter (name idp : String) (cs : List Customer)
    (hpw : cs.Pairwise fun a b => sameId a b = false)
    (cd : Customer) (hmem : cd ∈ cs)
    (hcd : idMatch name idp cd.name cd.idProof = true) :
    cs.filter (fun c => idMatch name idp c.name c.idProof) = [cd] := by
  induction cs with
  | nil => simp at hmem
  | cons c cs ih =>
      have h1 : ∀ b ∈ cs, sameId c b = false := (List.pairwise_cons.mp hpw).1
      have hpw' := (List.pairwise_cons.mp hpw).2
      rcases List.mem_cons.mp hmem with rfl | hmem2
      · have hnil : cs.filter (fun c2 => idMatch name idp c2.name c2.idProof) = [] := by
          rw [List.filter_eq_nil_iff]
          intro b hb hbmatch
          have hsame := sameId_of_match name idp cd b hcd (by simpa using hbmatch)
          rw [h1 b hb] at hsame
          exact Bool.false_ne_true hsame
        rw [List.filter_cons_of_pos (by simpa using hcd), hnil]
      · have hcfalse : idMatch name idp c.name c.idProof = false := by
          cases hc : idMatch name idp c.name c.idProof with
          | false => rfl
          | true =>
              have hsame := sameId_of_match name idp c cd hc hcd
              rw [h1 cd hmem2] at hsame
              exact absurd hsame Bool.false_ne_true
        rw [List.filter_cons_of_neg (by simp [hcfalse])]
        exact ih hpw' hmem2

theorem countRefs_append_single (num : String) (cs : List Customer) (c : Customer) :
    countRefs num (cs ++ [c])
      = countRefs num cs + (if c.roomNumber == num then 1 else 0) := by
  simp [countRefs, List.countP_append, List.countP_cons]

theorem countRefs_remove (name idp : String) (cs : List Customer) (cd : Customer)
    (hpw : cs.Pairwise fun a b => sameId a b = false)
    (h : (removeMatches name idp cs).2 = some cd) (num : String) :
    countRefs num cs
      = countRefs num (removeMatches name idp cs).1
        + (if cd.roomNumber == num then 1 else 0) := by
  obtain ⟨hmem, hmatch⟩ := removeMatches_snd_some name idp cs cd h
  have hfil := unique_match_filter name idp cs hpw cd hmem hmatch
  have hsplit := List.countP_eq_countP_filter_add cs
    (fun c => c.roomNumber == num) (fun c => idMatch name idp c.name c.idProof)
  rw [hfil] at hsplit
  rw [countRefs, hsplit, removeMatches_fst, countRefs]
  have : List.countP (fun c => c.roomNumber == num) [cd]
      = if cd.roomNumber == num then 1 else 0 := by
    simp [List.countP_cons]
  rw [this]
  exact Nat.add_comm _ _

theorem pairwise_append_newcomer (name idp : String) (cs : List Customer) (c : Customer)
    (hpw : cs.Pairwise fun a b => sameId a b = false)
    (hfree : countId name idp cs = 0)
    (hname : c.name = name) (hidp : c.idProof = idp) :
    (cs ++ [c]).Pairwise fun a b => sameId a b = false := by
  rw [List.pairwise_append]
  refine ⟨hpw, List.pairwise_singleton _ _, ?_⟩
  intro a ha b hb
  rcases List.mem_singleton.mp hb with rfl
  have hfalse : idMatch name idp a.name a.idProof = false := by
    have hz := List.countP_eq_zero.mp (by simpa [countId] using hfree) a ha
    exact Bool.eq_false_iff.mpr hz
  show sameId a b = false
  simp only [sameId, hname, hidp]
  exact hfalse

/-! Preservation of the strengthened invariant. -/

theorem hotelInv_book_aux (s : HotelState) (name idp t : String) (r : Room)
    (rooms2 : List Room) (c : Customer)
    (hbr : bookRoom t s.rooms = some (r, rooms2))
    (hcname : c.name = name) (hcidp : c.idProof = idp) (hcroom : c.roomNumber = r.number)
    (hinv : hotelInv s) (hfree : countId name idp s.customers = 0) :
    hotelInv { s with rooms := rooms2, customers := s.customers ++ [c] } := by
  obtain ⟨hnd, hiff, hle, hpw⟩ := hinv
  obtain ⟨l₁, l₂, h1eq, h2eq, htype, hav⟩ := bookRoom_some t s.rooms r rooms2 hbr
  have hrmem : r ∈ s.rooms := by
    rw [h1eq]; exact List.mem_append_right _ (List.mem_cons_self _ _)
  have hndflat : (l₁.map Room.number ++ r.number :: l₂.map Room.number).Nodup := by
    rw [h1eq, List.map_append, List.map_cons] at hnd; exact hnd
  have hnotmem₁ : r.number ∉ l₁.map Room.number := fun hmem =>
    (List.nodup_append.mp hndflat).2.2 hmem (List.mem_cons_self _ _)
  have hnotmem₂ : r.number ∉ l₂.map Room.number :=
    (List.nodup_cons.mp (List.nodup_append.mp hndflat).2.1).1
  have hcnt : ∀ num : String, countRefs num (s.customers ++ [c])
      = countRefs num s.customers + (if r.number == num then 1 else 0) := by
    intro num
    rw [countRefs_append_single, hcroom]
  have hrcount : countRefs r.number s.customers = 0 := by
    have hne : ¬ countRefs r.number s.customers = 1 := by
      intro hone
      have hbk := (hiff r hrmem).mpr hone
      rw [hav] at hbk
      exact absurd hbk (by decide)
    have hb := hle r hrmem
    omega
  have hmemne : ∀ x : Room, (x ∈ l₁ ∨ x ∈ l₂) → x ∈ s.rooms ∧ ¬ x.number = r.number := by
    intro x hx
    rcases hx with hx1 | hx2
    · exact ⟨by rw [h1eq]; exact List.mem_append_left _ hx1,
        fun heq => hnotmem₁ (heq ▸ List.mem_map_of_mem Room.number hx1)⟩
    · exact ⟨by rw [h1eq]; exact List.mem_append_right _ (List.mem_cons_of_mem _ hx2),
        fun heq => hnotmem₂ (heq ▸ List.mem_map_of_mem Room.number hx2)⟩
  have hkeep : ∀ num : String, ¬ num = r.number →
      countRefs num (s.customers ++ [c]) = countRefs num s.customers := by
    intro num hne
    rw [hcnt num, beq_eq_false_iff_ne.mpr fun h => hne h.symm]
    simp
  have hbooked : countRefs r.number (s.customers ++ [c]) = 1 := by
    rw [hcnt r.number, hrcount]
    simp
  unfold hotelInv roomInv
  dsimp only
  refine ⟨?_, ?_, ?_, ?_⟩
  · have hmapeq : rooms2.map Room.number = s.rooms.map Room.number := by
      rw [h2eq, h1eq]; simp
    rw [hmapeq]; exact hnd
  · intro x hx
    rw [h2eq] at hx
    rcases List.mem_append.mp hx with hx1 | hx2
    · obtain ⟨hxmem, hxne⟩ := hmemne x (Or.inl hx1)
      rw [hkeep x.number hxne]
      exact hiff x hxmem
    · rcases List.mem_cons.mp hx2 with rfl | hx3
      · constructor
        · intro _; exact hbooked
        · intro _; rfl
      · obtain ⟨hxmem, hxne⟩ := hmemne x (Or.inr hx3)
        rw [hkeep x.number hxne]
        exact hiff x hxmem
  · intro x hx
    rw [h2eq] at hx
    rcases List.mem_append.mp hx with hx1 | hx2
    · obtain ⟨hxmem, hxne⟩ := hmemne x (Or.inl hx1)
      rw [hkeep x.number hxne]
      exact hle x hxmem
    · rcases List.mem_cons.mp hx2 with rfl | hx3
      · exact Nat.le_of_eq hbooked
      · obtain ⟨hxmem, hxne⟩ := hmemne x (Or.inr hx3)
        rw [hkeep x.number hxne]
        exact hle x hxmem
  · exact pairwise_append_newcomer name idp s.customers c hpw hfree hcname hcidp

theorem hotelInv_checkout_aux (s : HotelState) (name idp : String) (cd : Customer)
    (hsnd : (removeMatches name idp s.customers).2 = some cd)
    (hinv : hotelInv s) :
    hotelInv { s with
      rooms := s.rooms.map fun x =>
        if x.number == cd.roomNumber then { x with status := "Available" } else x,
      customers := (removeMatches name idp s.customers).1 } := by
  obtain ⟨hnd, hiff, hle, hpw⟩ := hinv
  have hcnt := countRefs_remove name idp s.customers cd hpw hsnd
  unfold hotelInv roomInv
  dsimp only
  refine ⟨?_, ?_, ?_, ?_⟩
  · have hmapeq : ((s.rooms.map fun x =>
        if x.number == cd.roomNumber then { x with status := "Available" } else x).map
          Room.number) = s.rooms.map Room.number := by
      rw [List.map_map]
      apply List.map_congr_left
      intro x _
      by_cases hb : (x.number == cd.roomNumber) = true
      · simp [Function.comp, hb]
      · simp [Function.comp, hb]
    rw [hmapeq]; exact hnd
  · intro x' hx'
    obtain ⟨x, hx, rfl⟩ := List.mem_map.mp hx'
    by_cases hb : (x.number == cd.roomNumber) = true
    · have hxeq : x.number = cd.roomNumber := eq_of_beq hb
      have hcdx : (cd.roomNumber == x.number) = true := by rw [hxeq]; exact beq_self_eq_true _
      have h1 : countRefs x.number s.customers
          = countRefs x.number (removeMatches name idp s.customers).1 + 1 := by
        have h0 := hcnt x.number
        rw [hcdx] at h0
        simpa using h0
      have h2 := hle x hx
      have h3 : countRefs x.number (removeMatches name idp s.customers).1 = 0 := by omega
      rw [if_pos hb]
      exact iff_of_false (by simp) (by simp [h3])
    · have hxne : ¬ x.number = cd.roomNumber := by simpa using hb
      have hcdx : (cd.roomNumber == x.number) = false :=
        beq_eq_false_iff_ne.mpr fun h => hxne h.symm
      have h1 : countRefs x.number (removeMatches name idp s.customers).1
          = countRefs x.number s.customers := by
        have h0 := hcnt x.number
        rw [hcdx] at h0
        simpa using h0.symm
      rw [if_neg hb, h1]
      exact hiff x hx
  · intro x' hx'
    obtain ⟨x, hx, rfl⟩ := List.mem_map.mp hx'
    by_cases hb : (x.number == cd.roomNumber) = true
    · have hxeq : x.number = cd.roomNumber := eq_of_beq hb
      have hcdx : (cd.roomNumber == x.number) = true := by rw [hxeq]; exact beq_self_eq_true _
      have h1 : countRefs x.number s.customers
          = countRefs x.number (removeMatches name idp s.customers).1 + 1 := by
        have h0 := hcnt x.number
        rw [hcdx] at h0
        simpa using h0
      have h2 := hle x hx
      rw [if_pos hb]
      show countRefs x.number (removeMatches name idp s.customers).1 ≤ 1
      omega
    · have hxne : ¬ x.number = cd.roomNumber := by simpa using hb
      have hcdx : (cd.roomNumber == x.number) = false :=
        beq_eq_false_iff_ne.mpr fun h => hxne h.symm
      have h1 : countRefs x.number (removeMatches name idp s.customers).1
          = countRefs x.number s.customers := by
        have h0 := hcnt x.number
        rw [hcdx] at h0
        simpa using h0.symm
      rw [if_neg hb, h1]
      exact hle x hx
  · rw [removeMatches_fst]
    exact hpw.filter _

theorem hotelInv_book (s : HotelState) (name idp t : String) (days : Nat)
    (phone ts : String) (hinv : hotelInv s)
    (hfree : countId name idp s.customers = 0) :
    hotelInv (process_booking s name idp t days phone ts).2 := by
  unfold process_booking
  by_cases h1 : (name == "" || idp == "" || phone == "") = true
  · simp [h1]; exact hinv
  · rw [Bool.not_eq_true] at h1
    by_cases h2 : (days == 0) = true
    · simp [h1, h2]; exact hinv
    · rw [Bool.not_eq_true] at h2
      cases hbr : bookRoom t s.rooms with
      | none => simp [h1, h2, hbr]; exact hinv
      | some p =>
          obtain ⟨r, rooms2⟩ := p
          simp only [h1, h2, hbr, Bool.false_eq_true, if_false]
          exact hotelInv_book_aux s name idp t r rooms2 _ hbr rfl rfl rfl hinv hfree

theorem hotelInv_checkout (s : HotelState) (name idp : String) (hinv : hotelInv s) :
    hotelInv (process_checkout s name idp).2 := by
  unfold process_checkout
  by_cases h1 : (name == "" || idp == "") = true
  · simp [h1]; exact hinv
  · rw [Bool.not_eq_true] at h1
    cases hrm : removeMatches name idp s.customers with
    | mk newCs found =>
        cases found with
        | none => simp [h1, hrm]; exact hinv
        | some cd =>
            simp only [h1, hrm, Bool.false_eq_true, if_false]
            rw [show newCs = (removeMatches name idp s.customers).1 by rw [hrm]]
            exact hotelInv_checkout_aux s name idp cd (by rw [hrm]) hinv

/-! Congruence lemmas: `calculate_bill` reads each charge ledger only
through its accumulation loop. -/

theorem calculate_bill_food_congr (name idp : String) (cs : List Customer)
    (f₁ f₂ v : List Charge) (hk : List HkCharge)
    (h : chargeLoop name idp f₁ = chargeLoop name idp f₂) :
    calculate_bill name idp (some cs) (some f₁) (some v) (some hk)
      = calculate_bill name idp (some cs) (some f₂) (some v) (some hk) := by
  unfold calculate_bill
  dsimp only
  rw [h]

theorem calculate_bill_svcs_congr (name idp : String) (cs : List Customer)
    (f v₁ v₂ : List Charge) (hk : List HkCharge)
    (h : chargeLoop name idp v₁ = chargeLoop name idp v₂) :
    calculate_bill name idp (some cs) (some f) (some v₁) (some hk)
      = calculate_bill name idp (some cs) (some f) (some v₂) (some hk) := by
  unfold calculate_bill
  dsimp only
  rw [h]

theorem calculate_bill_hk_congr (name idp : String) (cs : List Customer)
    (f v : List Charge) (h₁ h₂ : List HkCharge)
    (h : hkLoop name idp h₁ = hkLoop name idp h₂) :
    calculate_bill name idp (some cs) (some f) (some v) (some h₁)
      = calculate_bill name idp (some cs) (some f) (some v) (some h₂) := by
  unfold calculate_bill
  dsimp only
  rw [h]

/-- C1: in the §8 scenario the running bill before check-out is 2450,
but check-out first removes the occupancy record and frees the room and
only then calls `calculate_bill`, so the final bill it returns has
`room_total = 0` and `grand_total = 450` even though the removed
occupancy's frozen `roomTotal` is 2000: the room charges are missing
from the check-out bill, contradicting the claimed 2450 (and leaving
the `Room Charges` branch of the check-out message unreachable).  The
occupancy is removed and room 101 is freed, as claimed. -/
theorem checkout_final_bill_drops_room_charges :
    (computeBill annWithFood "Ann" "P1").grand_total = 2450
    ∧ (process_checkout annWithFood "Ann" "P1").1
        = .done ⟨"Ann", "P1", "101", "Normal", 2, 2000, "9999", "t1"⟩ ⟨0, 450, 0, 0, 450⟩
    ∧ ((process_checkout annWithFood "Ann" "P1").2.rooms.filter
        fun r => r.number == "101").map Room.status = ["Available"]
    ∧ (process_checkout annWithFood "Ann" "P1").2.customers = [] := by
  refine ⟨by decide, by decide, by decide, by decide⟩

/-- C5: the grand total returned by `calculate_bill` is the sum of the
four sub-totals, and each charge sub-total is the sum of the
`lineTotal` / `cost` fields of exactly the ledger lines whose name
matches case-insensitively and whose idProof matches exactly. -/
theorem bill_totals_spec (s : HotelState) (name idp : String) :
    (computeBill s name idp).grand_total
      = (computeBill s name idp).room_total + (computeBill s name idp).food_total
        + (computeBill s name idp).services_total
        + (computeBill s name idp).housekeeping_total
    ∧ (computeBill s name idp).food_total
      = ((s.foodOrders.filter fun r => idMatch name idp r.name r.idProof).map
          Charge.lineTotal).sum
    ∧ (computeBill s name idp).services_total
      = ((s.services.filter fun r => idMatch name idp r.name r.idProof).map
          Charge.lineTotal).sum
    ∧ (computeBill s name idp).housekeeping_total
      = ((s.housekeeping.filter fun r => idMatch name idp r.name r.idProof).map
          HkCharge.cost).sum := by
  refine ⟨rfl, ?_, ?_, ?_⟩
  · exact chargeLoop_eq_sum name idp s.foodOrders
  · exact chargeLoop_eq_sum name idp s.services
  · exact hkLoop_eq_sum name idp s.housekeeping

/-- C9: a missing or unreadable ledger source never fails the bill: the
corresponding sub-total is 0, exactly as if that source held no
charges, and every other category is computed normally. -/
theorem missing_ledger_degrades_to_zero (name idp : String) (cs : List Customer)
    (food svcs : List Charge) (hk : List HkCharge) :
    (calculate_bill name idp none (some food) (some svcs) (some hk)
        = calculate_bill name idp (some []) (some food) (some svcs) (some hk)
      ∧ (calculate_bill name idp none (some food) (some svcs) (some hk)).room_total = 0)
    ∧ (calculate_bill name idp (some cs) none (some svcs) (some hk)
        = calculate_bill name idp (some cs) (some []) (some svcs) (some hk)
      ∧ (calculate_bill name idp (some cs) none (some svcs) (some hk)).food_total = 0)
    ∧ (calculate_bill name idp (some cs) (some food) none (some hk)
        = calculate_bill name idp (some cs) (some food) (some []) (some hk)
      ∧ (calculate_bill name idp (some cs) (some food) none (some hk)).services_total = 0)
    ∧ (calculate_bill name idp (some cs) (some food) (some svcs) none
        = calculate_bill name idp (some cs) (some food) (some svcs) (some [])
      ∧ (calculate_bill name idp (some cs) (some food) (some svcs) none).housekeeping_total
          = 0) :=
  ⟨⟨rfl, rfl⟩, ⟨rfl, rfl⟩, ⟨rfl, rfl⟩, ⟨rfl, rfl⟩⟩

/-- C10: when several occupancy records match the identity, the room
total of the bill is the frozen `roomTotal` of the first match in
storage order; the scan breaks there, so later matches contribute
nothing. -/
theorem room_total_first_match (s : HotelState) (name idp : String)
    (l₁ l₂ : List Customer) (c : Customer)
    (hsplit : s.customers = l₁ ++ c :: l₂)
    (hc : idMatch name idp c.name c.idProof = true)
    (hfirst : ∀ x ∈ l₁, idMatch name idp x.name x.idProof = false) :
    (computeBill s name idp).room_total = c.roomTotal := by
  show (match roomScan name idp s.customers with
        | some c2 => c2.roomTotal
        | none => 0) = c.roomTotal
  rw [hsplit, roomScan_first name idp l₁ l₂ c hc hfirst]

/-- Witness for C10: in a registry with two matches for Ann/P1 (frozen
room totals 2000 and 999), the bill reports 2000, the first match. -/
theorem room_total_first_match_witness :
    (computeBill twoMatchState "ANN" "P1").room_total = 2000 :=
  room_total_first_match twoMatchState "ANN" "P1" []
    [⟨"ann", "P1", "102", "Suite", 3, 999, "9", "t2"⟩]
    ⟨"Ann", "P1", "101", "Normal", 2, 2000, "9", "t1"⟩
    (by decide) (by decide) (by decide)

/-- C2 counterexample: from the seed inventory, check in Ann/P1 twice
(rooms 101 and 102), then check out Ann/P1.  Check-out removes both
occupancy records but frees only the last match's room (102), so room
101 ends up `Booked` with zero active occupancies referencing it: the
§3 invariant is violated by a check-in / check-out sequence starting
from the seed. -/
theorem invariant_broken_by_double_checkin_checkout :
    (process_booking seedState "Ann" "P1" "Normal" 1 "9" "t1").1 = .booked "101" 1000
    ∧ (process_booking doubleBook1 "Ann" "P1" "Normal" 1 "9" "t2").1 = .booked "102" 1000
    ∧ (process_checkout doubleBook2 "Ann" "P1").1
        = .done ⟨"Ann", "P1", "102", "Normal", 1, 1000, "9", "t2"⟩ ⟨0, 0, 0, 0, 0⟩
    ∧ (doubleBookOut.rooms.filter fun r => r.number == "101").map Room.status = ["Booked"]
    ∧ countRefs "101" doubleBookOut.customers = 0
    ∧ ¬ roomInv doubleBookOut := by
  refine ⟨by decide, by decide, by decide, by decide, by decide, by decide⟩

/-- C2 amended: the seed state satisfies the strengthened invariant
(room numbers distinct, `Booked` iff exactly one active occupancy
references the room, at most one reference per room, no two active
occupancies sharing an identity); every check-out preserves it, and
every check-in whose identity has no active occupancy preserves it; the
strengthened invariant implies the §3 room invariant.  (A check-in for
an already-active identity may later break the room invariant at
check-out, as the counterexample shows.) -/
theorem invariant_preserved_without_duplicate_checkin :
    hotelInv seedState
    ∧ (∀ s name idp t days phone ts, hotelInv s → countId name idp s.customers = 0 →
        hotelInv (process_booking s name idp t days phone ts).2)
    ∧ (∀ s name idp, hotelInv s → hotelInv (process_checkout s name idp).2)
    ∧ (∀ s, hotelInv s → roomInv s) := by
  refine ⟨by decide, ?_, ?_, ?_⟩
  · intro s name idp t days phone ts hinv hfree
    exact hotelInv_book s name idp t days phone ts hinv hfree
  · intro s name idp hinv
    exact hotelInv_checkout s name idp hinv
  · intro s hinv
    exact hinv.2.1

/-- Witness for C2: the preservation clauses applied at concrete
states, a check-out from a singly-booked state and a fresh check-in
from the seed. -/
theorem invariant_preserved_without_duplicate_checkin_witness :
    hotelInv (process_checkout doubleBook1 "Ann" "P1").2
    ∧ hotelInv (process_booking seedState "Ann" "P1" "Normal" 2 "9" "t1").2 := by
  refine ⟨?_, ?_⟩
  · exact invariant_preserved_without_duplicate_checkin.2.2.1 doubleBook1 "Ann" "P1"
      (by decide)
  · exact invariant_preserved_without_duplicate_checkin.2.1 seedState "Ann" "P1" "Normal"
      2 "9" "t1" (by decide) (by decide)

/-- C3 counterexample: with two records matching Ann/P1 in the
registry, check-out deletes both, not only the first: the rewritten
registry is empty rather than holding the later match. -/
theorem checkout_does_not_keep_later_match :
    (process_checkout doubleBook2 "Ann" "P1").2.customers = []
    ∧ (process_checkout doubleBook2 "Ann" "P1").2.customers
        ≠ [⟨"Ann", "P1", "102", "Normal", 1, 1000, "9", "t2"⟩] := by
  refine ⟨by decide, by decide⟩

/-- C3 amended: the check-out removal step deletes every record
matching the identity (name case-insensitive, idProof exact) and
rewrites exactly the non-matching records back in their original
relative order. -/
theorem checkout_removes_all_matches (name idp : String)
    (hn : ¬ name = "") (hi : ¬ idp = "") (s : HotelState) :
    (process_checkout s name idp).2.customers
      = s.customers.filter fun c => ! idMatch name idp c.name c.idProof := by
  have hcond : (name == "" || idp == "") = false := by simp [hn, hi]
  unfold process_checkout
  rw [hcond]
  cases hrm : removeMatches name idp s.customers with
  | mk newCs found =>
      cases found with
      | none =>
          have hall := removeMatches_snd_none name idp s.customers (by rw [hrm])
          dsimp only
          refine (List.filter_eq_self.mpr ?_).symm
          intro c hc
          simp [hall c hc]
      | some cd =>
          dsimp only
          rw [show newCs = (removeMatches name idp s.customers).1 by rw [hrm]]
          exact removeMatches_fst name idp s.customers

/-- Witness for C3: on the double-booking state both matching records
are removed; the filter of non-matching records is empty. -/
theorem checkout_removes_all_matches_witness :
    (process_checkout doubleBook2 "Ann" "P1").2.customers
      = doubleBook2.customers.filter fun c => ! idMatch "Ann" "P1" c.name c.idProof :=
  checkout_removes_all_matches "Ann" "P1" (by decide) (by decide) doubleBook2

/-- C4 counterexample: Ann/P1 already has an active occupancy, yet a
second check-in succeeds and leaves two simultaneously active
occupancy records for the identity. -/
theorem second_checkin_creates_duplicate_occupancy :
    countId "Ann" "P1" doubleBook1.customers = 1
    ∧ (process_booking doubleBook1 "Ann" "P1" "Normal" 1 "9" "t2").1 = .booked "102" 1000
    ∧ countId "Ann" "P1" doubleBook2.customers = 2 := by
  refine ⟨by decide, by decide, by decide⟩

/-- C4 amended: no operation enforces identity uniqueness: every
successful check-in appends exactly one occupancy record matching the
checked-in identity, regardless of whether that identity already has
an active occupancy (failed check-ins append nothing). -/
theorem checkin_increments_identity_count (s : HotelState) (name idp t : String)
    (days : Nat) (phone ts : String) :
    countId name idp (process_booking s name idp t days phone ts).2.customers
      = countId name idp s.customers
        + (if (process_booking s name idp t days phone ts).1.isBooked then 1 else 0) := by
  unfold process_booking
  by_cases h1 : (name == "" || idp == "" || phone == "") = true
  · simp [h1, BookOutcome.isBooked]
  · rw [Bool.not_eq_true] at h1
    by_cases h2 : (days == 0) = true
    · simp [h1, h2, BookOutcome.isBooked]
    · rw [Bool.not_eq_true] at h2
      cases hbr : bookRoom t s.rooms with
      | none => simp [h1, h2, hbr, BookOutcome.isBooked]
      | some p =>
          obtain ⟨r, rooms2⟩ := p
          simp only [h1, h2, hbr, Bool.false_eq_true, if_false]
          dsimp only [BookOutcome.isBooked]
          rw [if_pos rfl]
          show countId name idp (s.customers
              ++ [⟨name, idp, r.number, r.rtype, days, r.price * days, phone, ts⟩])
            = countId name idp s.customers + 1
          rw [countId, List.countP_append]
          have hone : List.countP (fun c : Customer => idMatch name idp c.name c.idProof)
              [⟨name, idp, r.number, r.rtype, days, r.price * days, phone, ts⟩] = 1 := by
            simp [idMatch, List.countP_cons]
          rw [hone, countId]

/-- C6: appending one well-formed charge for an identity raises exactly
the corresponding sub-total of that identity's bill by the appended
`lineTotal` (food and non-food items) or `cost` (housekeeping), and the
bill of any identity differing by case-insensitive name or exact
idProof is completely unchanged. -/
theorem append_charge_bill_delta (s : HotelState) (gname gid groom item : String)
    (qty price : Nat) (hkdesc : String) (cost : Nat) (pt sr ts bn bi : String) :
    (computeBill (place_order_food s gname gid groom [(item, qty, price)] ts)
        gname gid).food_total
      = (computeBill s gname gid).food_total + price * qty
    ∧ (computeBill (place_order_services s gname gid groom [(item, qty, price)] ts)
        gname gid).services_total
      = (computeBill s gname gid).services_total + price * qty
    ∧ (computeBill (submit_request_housekeeping s gname gid groom [(hkdesc, cost)] pt sr ts)
        gname gid).housekeeping_total
      = (computeBill s gname gid).housekeeping_total + cost
    ∧ (¬ (lower bn = lower gname ∧ bi = gid) →
        computeBill (place_order_food s gname gid groom [(item, qty, price)] ts) bn bi
          = computeBill s bn bi
        ∧ computeBill (place_order_services s gname gid groom [(item, qty, price)] ts) bn bi
          = computeBill s bn bi
        ∧ computeBill (submit_request_housekeeping s gname gid groom [(hkdesc, cost)] pt sr ts)
            bn bi
          = computeBill s bn bi) := by
  have hself : idMatch gname gid gname gid = true := by simp [idMatch]
  refine ⟨?_, ?_, ?_, ?_⟩
  · show chargeLoop gname gid
        (s.foodOrders ++ [⟨gname, gid, groom, item, qty, price, price * qty, ts⟩])
      = chargeLoop gname gid s.foodOrders + price * qty
    rw [chargeLoop_append]
    simp [hself]
  · show chargeLoop gname gid
        (s.services ++ [⟨gname, gid, groom, item, qty, price, price * qty, ts⟩])
      = chargeLoop gname gid s.services + price * qty
    rw [chargeLoop_append]
    simp [hself]
  · show hkLoop gname gid
        (s.housekeeping ++ [⟨gname, gid, groom, hkdesc, cost, pt, sr, ts, "Pending"⟩])
      = hkLoop gname gid s.housekeeping + cost
    rw [hkLoop_append]
    simp [hself]
  · intro hB
    have hnomatch : idMatch bn bi gname gid = false := by
      cases hq : idMatch bn bi gname gid with
      | false => rfl
      | true =>
          simp only [idMatch, Bool.and_eq_true, beq_iff_eq] at hq
          exact absurd ⟨hq.1.symm, hq.2.symm⟩ hB
    refine ⟨?_, ?_, ?_⟩
    · show calculate_bill bn bi (some s.customers)
          (some (s.foodOrders ++ [⟨gname, gid, groom, item, qty, price, price * qty, ts⟩]))
          (some s.services) (some s.housekeeping)
        = calculate_bill bn bi (some s.customers) (some s.foodOrders)
          (some s.services) (some s.housekeeping)
      apply calculate_bill_food_congr
      rw [chargeLoop_append]
      simp [hnomatch]
    · show calculate_bill bn bi (some s.customers) (some s.foodOrders)
          (some (s.services ++ [⟨gname, gid, groom, item, qty, price, price * qty, ts⟩]))
          (some s.housekeeping)
        = calculate_bill bn bi (some s.customers) (some s.foodOrders)
          (some s.services) (some s.housekeeping)
      apply calculate_bill_svcs_congr
      rw [chargeLoop_append]
      simp [hnomatch]
    · show calculate_bill bn bi (some s.customers) (some s.foodOrders) (some s.services)
          (some (s.housekeeping ++ [⟨gname, gid, groom, hkdesc, cost, pt, sr, ts, "Pending"⟩]))
        = calculate_bill bn bi (some s.customers) (some s.foodOrders)
          (some s.services) (some s.housekeeping)
      apply calculate_bill_hk_congr
      rw [hkLoop_append]
      simp [hnomatch]

/-- Witness for C6: appending one Pizza at 450 for Ann/P1 raises Ann's
food total by 450 and leaves the bill of Bob/Q1 unchanged. -/
theorem append_charge_bill_delta_witness :
    (computeBill (place_order_food seedState "Ann" "P1" "101" [("Pizza", 1, 450)] "t")
        "Ann" "P1").food_total
      = (computeBill seedState "Ann" "P1").food_total + 450 * 1
    ∧ computeBill (place_order_food seedState "Ann" "P1" "101" [("Pizza", 1, 450)] "t")
        "Bob" "Q1"
      = computeBill seedState "Bob" "Q1" := by
  refine ⟨?_, ?_⟩
  · exact (append_charge_bill_delta seedState "Ann" "P1" "101" "Pizza" 1 450
      "Room Cleaning" 200 "Now" "none" "t" "Bob" "Q1").1
  · exact ((append_charge_bill_delta seedState "Ann" "P1" "101" "Pizza" 1 450
      "Room Cleaning" 200 "Now" "none" "t" "Bob" "Q1").2.2.2 (by decide)).1

/-- C7: with non-empty fields and `days > 0`, check-in allocates the
first `Available` room of the requested type in storage order, marks
exactly that room `Booked`, and appends exactly one occupancy record
whose frozen `roomTotal` is `pricePerNight * days`. -/
theorem checkin_allocates_first_available (s : HotelState) (name idp t : String)
    (days : Nat) (phone ts : String) (l₁ l₂ : List Room) (r : Room)
    (hname : ¬ name = "") (hidp : ¬ idp = "") (hphone : ¬ phone = "")
    (hdays : 0 < days)
    (hsplit : s.rooms = l₁ ++ r :: l₂)
    (htype : r.rtype = t) (hav : r.status = "Available")
    (hfirst : ∀ x ∈ l₁, ¬ (x.rtype = t ∧ x.status = "Available")) :
    process_booking s name idp t days phone ts
      = (.booked r.number (r.price * days),
         { s with rooms := l₁ ++ { r with status := "Booked" } :: l₂,
                  customers := s.customers ++
                    [⟨name, idp, r.number, r.rtype, days, r.price * days, phone, ts⟩] }) := by
  have hcond1 : (name == "" || idp == "" || phone == "") = false := by
    simp [hname, hidp, hphone]
  have hcond2 : (days == 0) = false := by
    simp
    omega
  have hbool : ∀ x ∈ l₁, (x.rtype == t && x.status == "Available") = false := by
    intro x hx
    have hnx := hfirst x hx
    by_cases h1 : x.rtype = t
    · by_cases h2 : x.status = "Available"
      · exact absurd ⟨h1, h2⟩ hnx
      · simp [h2]
    · simp [h1]
  have hbr : bookRoom t s.rooms = some (r, l₁ ++ { r with status := "Booked" } :: l₂) := by
    rw [hsplit]
    exact bookRoom_of_first t l₁ l₂ r (by simp [htype, hav]) hbool
  unfold process_booking
  rw [hcond1, hcond2, hbr]
  rfl

/-- Witness for C7: from the seed, a 2-night Deluxe check-in books room
201 (the first Deluxe in storage order) for 3600. -/
theorem checkin_allocates_first_available_witness :
    process_booking seedState "Bob" "B7" "Deluxe" 2 "555" "t0"
      = (.booked "201" 3600,
         { seedState with
             rooms := [⟨"101", "Normal", "Available", 1000⟩,
                       ⟨"102", "Normal", "Available", 1000⟩,
                       ⟨"103", "Normal", "Available", 1000⟩]
               ++ ⟨"201", "Deluxe", "Booked", 1800⟩
                  :: [⟨"202", "Deluxe", "Available", 1800⟩,
                      ⟨"203", "Deluxe", "Available", 1800⟩,
                      ⟨"301", "Suite", "Available", 3000⟩,
                      ⟨"302", "Suite", "Available", 3000⟩],
             customers := seedState.customers
               ++ [⟨"Bob", "B7", "201", "Deluxe", 2, 3600, "555", "t0"⟩] }) :=
  checkin_allocates_first_available seedState "Bob" "B7" "Deluxe" 2 "555" "t0"
    [⟨"101", "Normal", "Available", 1000⟩,
     ⟨"102", "Normal", "Available", 1000⟩,
     ⟨"103", "Normal", "Available", 1000⟩]
    [⟨"202", "Deluxe", "Available", 1800⟩,
     ⟨"203", "Deluxe", "Available", 1800⟩,
     ⟨"301", "Suite", "Available", 3000⟩,
     ⟨"302", "Suite", "Available", 3000⟩]
    ⟨"201", "Deluxe", "Available", 1800⟩
    (by decide) (by decide) (by decide) (by decide) (by decide) rfl rfl (by decide)

/-- C8: with non-empty fields and `days > 0`, when no room of the
requested type is `Available` check-in fails with the no-availability
outcome and returns the state unchanged: no room status is modified
and no occupancy record is created. -/
theorem checkin_no_availability (s : HotelState) (name idp t : String) (days : Nat)
    (phone ts : String)
    (hname : ¬ name = "") (hidp : ¬ idp = "") (hphone : ¬ phone = "")
    (hdays : 0 < days)
    (hnone : ∀ x ∈ s.rooms, ¬ (x.rtype = t ∧ x.status = "Available")) :
    process_booking s name idp t days phone ts = (.noAvailability, s) := by
  have hcond1 : (name == "" || idp == "" || phone == "") = false := by
    simp [hname, hidp, hphone]
  have hcond2 : (days == 0) = false := by
    simp
    omega
  have hbool : ∀ x ∈ s.rooms, (x.rtype == t && x.status == "Available") = false := by
    intro x hx
    have hnx := hnone x hx
    by_cases h1 : x.rtype = t
    · by_cases h2 : x.status = "Available"
      · exact absurd ⟨h1, h2⟩ hnx
      · simp [h2]
    · simp [h1]
  have hbr : bookRoom t s.rooms = none := bookRoom_none t s.rooms hbool
  unfold process_booking
  rw [hcond1, hcond2, hbr]
  rfl

/-- Witness for C8: the seed inventory has no `"Penthouse"` room, so a
check-in for that type fails with no-availability and returns the seed
state unchanged. -/
theorem checkin_no_availability_witness :
    process_booking seedState "Ann" "P1" "Penthouse" 2 "9" "t1"
      = (.noAvailability, seedState) :=
  checkin_no_availability seedState "Ann" "P1" "Penthouse" 2 "9" "t1"
    (by decide) (by decide) (by decide) (by decide) (by decide)
